import Mathlib

/-!
Verification development for the openmiddleware execution engine and adapters.

The definitions below are a shallow embedding of the repository's core:

* `ResponseBuilder` operations and `build` from the response-builder module
  (`createResponseBuilder`): the mutable builder becomes explicit state
  passing over `RespState`; `build` returns the snapshot together with the
  (unchanged) builder state, mirroring that the source `build()` only reads
  the captured fields.
* The middleware chain driver from `chain.ts` (`createChain`, `handle`,
  `initializeMiddlewares`, `executeChain` with its inner `next` closure):
  JavaScript's shared mutation of the context and of the private `index`
  variable becomes a threaded `EState`; a thrown exception carries the state
  it was thrown from (mutations are not rolled back), so `next` returns
  `EState × Option Err`.  The general recursion of `next` is bounded by a
  fuel argument: each nested `next` call first increments `index`, so for
  handlers that leave the engine-private `index` untouched a fuel of
  `middlewares.length + 1` can never run out; `handle` supplies exactly that.
* Context metadata derivation from `context.ts` (`extractRequestId`,
  `extractClientIP`, `isValidIP`) over Fetch-style header multimaps, and the
  fallback UUID generator from `utils/uuid.ts` with its random bytes made an
  explicit parameter.
* The pass-through decision logic of the Hono and Koa adapters
  (`toHono` / `toKoa`), reduced to the effect each adapter performs after
  `chain.handle` returns: finalize the reply, call the host's `next`, or
  do nothing.

The free-form per-request state bag of the context is specialized to a list
of `Ev` events; the instrumented handlers used in the theorems record their
entry, post-`next` resumption, and caught errors there, exactly how the
repository's own tests observe execution order.
-/

namespace OpenMW

/-- Fetch-style header multimap; names are compared case-insensitively. -/
abbrev HeaderList := List (String × String)

/-- ASCII lowercasing of one character (header names are ASCII). -/
def lowerChar (c : Char) : Char :=
  if 'A' ≤ c && c ≤ 'Z' then Char.ofNat (c.toNat + 32) else c

/-- ASCII lowercasing of a string, as Fetch header-name normalization. -/
def lowerStr (s : String) : String :=
  String.mk (s.data.map lowerChar)

/-- JavaScript's `split` with a one-character separator, on a character
list: splitting the empty text yields one empty part, and every separator
occurrence starts a new part. -/
def splitCharList (sep : Char) : List Char → List (List Char)
  | [] => [[]]
  | c :: rest =>
    let r := splitCharList sep rest
    if c = sep then [] :: r
    else
      match r with
      | [] => [[c]]
      | g :: gs => (c :: g) :: gs

/-- JavaScript's `String.prototype.split` with a one-character separator. -/
def jsSplit (sep : Char) (s : String) : List String :=
  (splitCharList sep s.data).map String.mk

/-- The whitespace characters JavaScript's `trim` strips in these inputs. -/
def isWhitespaceChar (c : Char) : Bool :=
  c = ' ' || c = '\t' || c = '\n' || c = '\r'

/-- JavaScript's `String.prototype.trim`. -/
def jsTrim (s : String) : String :=
  String.mk
    (((s.data.dropWhile isWhitespaceChar).reverse.dropWhile
        isWhitespaceChar).reverse)

/-- The `parseInt(digits, 10)` on a run of decimal digits. -/
def digitsToNat (l : List Char) : Nat :=
  l.foldl (fun acc c => acc * 10 + (c.toNat - 48)) 0

/-- The `Headers.get`: all values for the name, joined with `", "`; `none` when absent. -/
def headersGet (hs : HeaderList) (name : String) : Option String :=
  let vs := (hs.filter (fun p => lowerStr p.1 = lowerStr name)).map (fun p => p.2)
  if vs.isEmpty then none else some (String.intercalate ", " vs)

/-- The `Headers.has`. -/
def headersHas (hs : HeaderList) (name : String) : Bool :=
  hs.any (fun p => lowerStr p.1 = lowerStr name)

/-- The `Headers.set`: drop existing values for the name, add the new one. -/
def headersSet (hs : HeaderList) (name value : String) : HeaderList :=
  (hs.filter (fun p => ¬ lowerStr p.1 = lowerStr name)) ++ [(lowerStr name, value)]

/-- The `Headers.append`: add a value, keeping existing ones. -/
def headersAppend (hs : HeaderList) (name value : String) : HeaderList :=
  hs ++ [(lowerStr name, value)]

/-- The `Headers.delete`. -/
def headersDelete (hs : HeaderList) (name : String) : HeaderList :=
  hs.filter (fun p => ¬ lowerStr p.1 = lowerStr name)

/-- Immutable reply snapshot: the `Response` the source builds in `build()`. -/
structure Reply where
  status : Nat
  headers : HeaderList
  body : Option String
deriving Repr, DecidableEq

/-- Mutable state captured by `createResponseBuilder`: `_status`, `_headers`, `_body`. -/
structure RespState where
  status : Nat
  headers : HeaderList
  body : Option String
deriving Repr, DecidableEq

/-- The builder's initial state: status 200, no headers, no body. -/
def initialRespState : RespState :=
  { status := 200, headers := [], body := none }

namespace ResponseBuilder

/-- The `setStatus(code)`. -/
def setStatus (code : Nat) (b : RespState) : RespState :=
  { b with status := code }

/-- The `setHeader(name, value)`. -/
def setHeader (name value : String) (b : RespState) : RespState :=
  { b with headers := headersSet b.headers name value }

/-- The `appendHeader(name, value)`. -/
def appendHeader (name value : String) (b : RespState) : RespState :=
  { b with headers := headersAppend b.headers name value }

/-- The `deleteHeader(name)`. -/
def deleteHeader (name : String) (b : RespState) : RespState :=
  { b with headers := headersDelete b.headers name }

/-- The `json(data)`: sets the JSON content type and the serialized body. -/
def json (serialized : String) (b : RespState) : RespState :=
  { b with
    headers := headersSet b.headers "Content-Type" "application/json; charset=utf-8",
    body := some serialized }

/-- The `text(content)`. -/
def text (content : String) (b : RespState) : RespState :=
  { b with
    headers := headersSet b.headers "Content-Type" "text/plain; charset=utf-8",
    body := some content }

/-- The `html(content)`. -/
def html (content : String) (b : RespState) : RespState :=
  { b with
    headers := headersSet b.headers "Content-Type" "text/html; charset=utf-8",
    body := some content }

/-- The `redirect(url, status)`: status, `Location` header, body cleared. -/
def redirect (url : String) (redirectStatus : Nat) (b : RespState) : RespState :=
  { b with
    status := redirectStatus,
    headers := headersSet b.headers "Location" url,
    body := none }

/-- The `build()`: constructs `new Response(_body, { status, headers })` from the
captured fields and performs no assignment, so the builder state comes back
unchanged. -/
def build (b : RespState) : Reply × RespState :=
  ({ status := b.status, headers := b.headers, body := b.body }, b)

end ResponseBuilder

/-- The reply `build()` produces from an untouched builder. -/
def defaultReply : Reply :=
  (ResponseBuilder.build initialRespState).1

/-- Failures travelling out of a handler: the engine-private
`ShortCircuitError` (which carries the captured reply), an ordinary
user-thrown error (its payload reduced to a numeric code), or exhaustion of
the fuel bounding the embedded recursion (never reached in any run proved
below). -/
inductive Err where
  | shortCircuit (r : Reply)
  | userError (code : Nat)
  | fuelExhausted
deriving Repr, DecidableEq

/-- Events the instrumented handlers append to the context's state bag:
entry into a handler, resumption of its code after `next()` returned, and
observation of an error by a handler's catch block. -/
inductive Ev where
  | enter (k : Nat)
  | afterNext (k : Nat)
  | caught (k : Nat)
deriving Repr, DecidableEq

/-- Execution state threaded through a run: `executeChain`'s private `index`,
the context's response builder, and the context's state bag (specialized to
an event list). -/
structure EState where
  index : Nat
  resp : RespState
  trace : List Ev
deriving Repr, DecidableEq

/-- A handler's returned `MiddlewareResult`: `{done: false}` or
`{done: true, response}`. -/
inductive MwResult where
  | continueResult
  | stopResult (r : Reply)
deriving Repr, DecidableEq

/-- How a handler invocation ends: a returned result or a thrown error. -/
inductive HOut where
  | ret (r : MwResult)
  | thrown (e : Err)
deriving Repr, DecidableEq

/-- The `next` continuation as seen by a handler. -/
abbrev NextFn := EState → EState × Option Err

/-- A middleware handler: receives the context/state and the `next`
continuation. -/
abbrev HandlerFn := EState → NextFn → EState × HOut

/-- A registered middleware: name, handler, optional `onInit` hook.  The
hook's only observable effect for the claims below is that it ran, so it is
represented by the token it emits into the init log when invoked. -/
structure Middleware where
  name : String
  handler : HandlerFn
  onInit : Option String

/-- The inner `next` closure of `executeChain`: past-the-end is a no-op;
otherwise take the middleware at `index`, increment `index`, invoke the
handler; a `{done: true}` result becomes a thrown `ShortCircuitError`.  The
fuel argument only bounds the depth of nested `next` calls. -/
def chainNext (mws : List Middleware) : Nat → NextFn
  | 0 => fun s => (s, some Err.fuelExhausted)
  | fuel + 1 => fun s =>
    if h : s.index < mws.length then
      let mw := mws[s.index]
      let s1 : EState := { s with index := s.index + 1 }
      match mw.handler s1 (chainNext mws fuel) with
      | (s2, HOut.thrown e) => (s2, some e)
      | (s2, HOut.ret MwResult.continueResult) => (s2, none)
      | (s2, HOut.ret (MwResult.stopResult r)) => (s2, some (Err.shortCircuit r))
    else (s, none)

/-- The `executeChain`: start the chain by invoking `next()` once on a fresh
index, with the context built from the given initial state bag. -/
def executeChain (mws : List Middleware) (fuel : Nat) (initialState : List Ev) :
    EState × Option Err :=
  chainNext mws fuel { index := 0, resp := initialRespState, trace := initialState }

/-- The `initializeMiddlewares`: run every registered `onInit` hook in
registration order; the result is the log of hook invocations. -/
def initializeMiddlewares (mws : List Middleware) : List String :=
  mws.filterMap (fun mw => mw.onInit)

/-- The chain's own mutable state: the registered middleware list and the
one-shot `initialized` flag of `createChain`. -/
structure ChainState where
  middlewares : List Middleware
  initialized : Bool

deriving instance DecidableEq for Except

/-- What one `handle` call produces: the returned reply (or rethrown
ordinary error), the context observable after the run, and the log of
`onInit` invocations performed by this call. -/
structure HandleResult where
  outcome : Except Err Reply
  finalState : EState
  initLog : List String
deriving Repr, DecidableEq

/-- The `chain.handle(request, initialState)`: initialize middlewares on the
first request, build a fresh context, drive the chain, return the built
reply; a caught `ShortCircuitError` returns its captured response, any other
error is rethrown.  The fuel handed to the driver is `length + 1`, which
nested `next` calls can never exhaust (each nesting level first increments
the engine-private `index`). -/
def handle (cs : ChainState) (initialState : List Ev) : HandleResult × ChainState :=
  let initLog :=
    if cs.initialized then [] else initializeMiddlewares cs.middlewares
  let cs' : ChainState := { cs with initialized := true }
  match executeChain cs.middlewares (cs.middlewares.length + 1) initialState with
  | (s, none) =>
    ({ outcome := Except.ok (ResponseBuilder.build s.resp).1, finalState := s,
       initLog := initLog }, cs')
  | (s, some (Err.shortCircuit r)) =>
    ({ outcome := Except.ok r, finalState := s, initLog := initLog }, cs')
  | (s, some e) =>
    ({ outcome := Except.error e, finalState := s, initLog := initLog }, cs')

/-- The `chain.clone()`: a fresh chain (whose `initialized` flag starts false)
seeded with the same middleware objects. -/
def clone (cs : ChainState) : ChainState :=
  { middlewares := cs.middlewares, initialized := false }

/-- An onion-style instrumented handler: records entry, awaits `next()`,
records resumption, returns `{done: false}`; an error thrown out of `next`
propagates (the handler has no catch block). -/
def onionHandler (k : Nat) : HandlerFn := fun s nxt =>
  let s1 : EState := { s with trace := s.trace ++ [Ev.enter k] }
  match nxt s1 with
  | (s2, some e) => (s2, HOut.thrown e)
  | (s2, none) =>
    ({ s2 with trace := s2.trace ++ [Ev.afterNext k] },
     HOut.ret MwResult.continueResult)

/-- The onion handler wrapped as a registered middleware. -/
def onionMw (k : Nat) : Middleware :=
  { name := "onion-" ++ toString k, handler := onionHandler k, onInit := none }

/-- A pipeline of `n` onion handlers, numbered 1..n in registration order. -/
def onionMws (n : Nat) : List Middleware :=
  (List.range n).map (fun i => onionMw (i + 1))

/-- An onion handler that additionally mutates the context's response
builder (sets status 500) before invoking `next()`, to make visible whether
the builder's contents reach the returned reply. -/
def preMutOnionHandler (k : Nat) : HandlerFn := fun s nxt =>
  let s1 : EState :=
    { s with resp := ResponseBuilder.setStatus 500 s.resp,
             trace := s.trace ++ [Ev.enter k] }
  match nxt s1 with
  | (s2, some e) => (s2, HOut.thrown e)
  | (s2, none) =>
    ({ s2 with trace := s2.trace ++ [Ev.afterNext k] },
     HOut.ret MwResult.continueResult)

/-- The `preMutOnionHandler` as a middleware. -/
def preMutOnionMw (k : Nat) : Middleware :=
  { name := "premut-" ++ toString k, handler := preMutOnionHandler k, onInit := none }

/-- A handler that records entry and returns `{done: true, response := r}`
without invoking `next()`. -/
def stopHandler (k : Nat) (r : Reply) : HandlerFn := fun s _ =>
  ({ s with trace := s.trace ++ [Ev.enter k] }, HOut.ret (MwResult.stopResult r))

/-- The `stopHandler` as a middleware. -/
def stopMw (k : Nat) (r : Reply) : Middleware :=
  { name := "stop-" ++ toString k, handler := stopHandler k r, onInit := none }

/-- A handler that records entry and returns `{done: false}` without ever
invoking `next()`. -/
def noNextHandler (k : Nat) : HandlerFn := fun s _ =>
  ({ s with trace := s.trace ++ [Ev.enter k] }, HOut.ret MwResult.continueResult)

/-- The `noNextHandler` as a middleware. -/
def noNextMw (k : Nat) : Middleware :=
  { name := "nonext-" ++ toString k, handler := noNextHandler k, onInit := none }

/-- An onion handler whose after-`next` code mutates the response builder:
it sets the status to `code` once every downstream handler has finished. -/
def afterMutateHandler (k code : Nat) : HandlerFn := fun s nxt =>
  let s1 : EState := { s with trace := s.trace ++ [Ev.enter k] }
  match nxt s1 with
  | (s2, some e) => (s2, HOut.thrown e)
  | (s2, none) =>
    ({ s2 with resp := ResponseBuilder.setStatus code s2.resp,
               trace := s2.trace ++ [Ev.afterNext k] },
     HOut.ret MwResult.continueResult)

/-- The `afterMutateHandler` as a middleware. -/
def afterMutateMw (k code : Nat) : Middleware :=
  { name := "aftermut-" ++ toString k, handler := afterMutateHandler k code,
    onInit := none }

/-- A handler wrapping `next()` in a blanket catch that swallows every
error and recovers — the JavaScript `try { await next() } catch (e) { }`
a centralized error-handling middleware would write.  JavaScript's `catch`
receives whatever was thrown, including the engine's `ShortCircuitError`. -/
def catchSwallowHandler (k : Nat) : HandlerFn := fun s nxt =>
  let s1 : EState := { s with trace := s.trace ++ [Ev.enter k] }
  match nxt s1 with
  | (s2, some _) =>
    ({ s2 with trace := s2.trace ++ [Ev.caught k] }, HOut.ret MwResult.continueResult)
  | (s2, none) =>
    ({ s2 with trace := s2.trace ++ [Ev.afterNext k] },
     HOut.ret MwResult.continueResult)

/-- The `catchSwallowHandler` as a middleware. -/
def catchSwallowMw (k : Nat) : Middleware :=
  { name := "swallow-" ++ toString k, handler := catchSwallowHandler k,
    onInit := none }

/-- A handler wrapping `next()` in a catch that uses exception-type
discrimination, the pattern of the repository's own middlewares (for instance
the timeout middleware): it handles only the ordinary error it
recognizes (`userError code`) and rethrows anything else — in particular
the engine's short-circuit signal. -/
def catchRethrowHandler (k code : Nat) : HandlerFn := fun s nxt =>
  let s1 : EState := { s with trace := s.trace ++ [Ev.enter k] }
  match nxt s1 with
  | (s2, none) =>
    ({ s2 with trace := s2.trace ++ [Ev.afterNext k] },
     HOut.ret MwResult.continueResult)
  | (s2, some (Err.userError c)) =>
    if c = code then
      ({ s2 with trace := s2.trace ++ [Ev.caught k] },
       HOut.ret MwResult.continueResult)
    else (s2, HOut.thrown (Err.userError c))
  | (s2, some e) => (s2, HOut.thrown e)

/-- The `catchRethrowHandler` as a middleware. -/
def catchRethrowMw (k code : Nat) : Middleware :=
  { name := "rethrow-" ++ toString k, handler := catchRethrowHandler k code,
    onInit := none }

/-- The event sequence an onion segment produces, starting at index `i`
with `m` handlers remaining: enter `i+1`, the inner segment, resume `i+1`. -/
def onionTrace : Nat → Nat → List Ev
  | _, 0 => []
  | i, m + 1 => Ev.enter (i + 1) :: (onionTrace (i + 1) m ++ [Ev.afterNext (i + 1)])

/-- Entry events for handlers `i+1 .. i+m`, in ascending order. -/
def enterSeq (i m : Nat) : List Ev :=
  (List.range m).map (fun j => Ev.enter (i + 1 + j))

/-- Resumption events for handlers `i+1 .. i+m`, in descending order. -/
def afterSeqRev (i m : Nat) : List Ev :=
  ((List.range m).reverse).map (fun j => Ev.afterNext (i + 1 + j))

/-- The event sequence produced by an onion segment that ends in a handler
returning `{done: false}` without calling `next()`: with `m` onion handlers
starting at index `i` followed by the no-`next` handler, the enters run
`i+1 .. i+m+1` and the resumptions unwind `i+m .. i+1` (the no-`next`
handler itself has no resumption phase). -/
def noNextTrace : Nat → Nat → List Ev
  | i, 0 => [Ev.enter (i + 1)]
  | i, m + 1 => Ev.enter (i + 1) :: (noNextTrace (i + 1) m ++ [Ev.afterNext (i + 1)])

/-- Iterate `m` sequential (non-overlapping) `handle` calls on a chain,
collecting each call's `onInit` invocation log. -/
def seqHandle (cs : ChainState) : Nat → List (List String) × ChainState
  | 0 => ([], cs)
  | m + 1 =>
    let hr := handle cs []
    let rest := seqHandle hr.2 m
    (hr.1.initLog :: rest.1, rest.2)

/-- The ordered proxy-header priority list of `extractClientIP`. -/
def ipHeaders : List String :=
  ["cf-connecting-ip", "x-real-ip", "x-forwarded-for", "x-client-ip",
   "true-client-ip"]

/-- The IPv4 test of `isValidIP`: the anchored regex
`(\d{1,3}\.){3}\d{1,3}` holds exactly when the string is four dot-separated
runs of one to three decimal digits. -/
def isIPv4Shape (ip : String) : Bool :=
  let parts := jsSplit '.' ip
  parts.length = 4 &&
    parts.all (fun p => 1 ≤ p.length && p.length ≤ 3 && p.data.all Char.isDigit)

/-- A hexadecimal digit, as the IPv6 regex's `[0-9a-fA-F]` class. -/
def isHexDigitChar (c : Char) : Bool :=
  c.isDigit || ('a' ≤ c && c ≤ 'f') || ('A' ≤ c && c ≤ 'F')

/-- The main IPv6 test of `isValidIP`: the anchored regex
`([0-9a-fA-F]{0,4}:){2,7}[0-9a-fA-F]{0,4}` holds exactly when splitting on
`:` yields three to eight parts, each at most four hex digits. -/
def isIPv6Shape (ip : String) : Bool :=
  let parts := jsSplit ':' ip
  3 ≤ parts.length && parts.length ≤ 8 &&
    parts.all (fun p => p.length ≤ 4 && p.data.all isHexDigitChar)

/-- The `isValidIP`: the IPv4 branch additionally checks every octet is at most
255 (`parseInt` of a digit run); otherwise a string containing `:` passes
the simplified IPv6 check or equals `::1` or `::`. -/
def isValidIP (ip : String) : Bool :=
  if isIPv4Shape ip then
    (jsSplit '.' ip).all (fun p => digitsToNat p.data ≤ 255)
  else if ip.data.contains ':' then
    isIPv6Shape ip || ip = "::1" || ip = "::"
  else false

/-- The loop body of `extractClientIP`: for each header in order, a present
non-empty value contributes its first comma-separated entry, trimmed; the
candidate is returned only if `isValidIP` accepts it, otherwise the
remaining headers are tried. -/
def firstValidIP : List String → HeaderList → Option String
  | [], _ => none
  | h :: rest, hs =>
    match headersGet hs h with
    | some v =>
      if v = "" then firstValidIP rest hs
      else
        let ip := jsTrim ((jsSplit ',' v).headD "")
        if ip = "" then firstValidIP rest hs
        else if isValidIP ip then some ip
        else firstValidIP rest hs
    | none => firstValidIP rest hs

/-- The `extractClientIP`: try the fixed priority list of proxy headers. -/
def extractClientIP (hs : HeaderList) : Option String :=
  firstValidIP ipHeaders hs

/-- JavaScript's `||` on `string | undefined`: the empty string is falsy. -/
def jsOr (a b : Option String) : Option String :=
  match a with
  | some v => if v = "" then b else some v
  | none => b

/-- JavaScript's `||` against a final (always-truthy) string default. -/
def jsOrD (a : Option String) (d : String) : String :=
  match a with
  | some v => if v = "" then d else v
  | none => d

/-- The `extractRequestId`: the first truthy value among the `x-request-id`,
`x-correlation-id` and `request-id` headers, else `undefined`. -/
def extractRequestId (hs : HeaderList) : Option String :=
  jsOr (headersGet hs "x-request-id")
    (jsOr (headersGet hs "x-correlation-id")
      (jsOr (headersGet hs "request-id") none))

/-- One lowercase hex digit, as produced by JavaScript's `toString(16)`. -/
def hexDigitChar (n : Nat) : Char :=
  if n < 10 then Char.ofNat (48 + n) else Char.ofNat (87 + n)

/-- The `toString(16).padStart(2, '0')` of a byte value below 256. -/
def hexByte (b : Nat) : String :=
  String.mk [hexDigitChar (b / 16), hexDigitChar (b % 16)]

/-- The 16 random bytes of `generateUUIDFallback` after the version and
variant bits are forced: byte 6 becomes `(b & 0x0f) | 0x40` and byte 8
becomes `(b & 0x3f) | 0x80`.  The randomness source is an explicit
parameter giving each byte's raw value (reduced mod 256 as a `Uint8Array`
entry is). -/
def uuidBytes (seed : Nat → Nat) : List Nat :=
  (List.range 16).map (fun i =>
    if i = 6 then (seed i % 256) % 16 + 64
    else if i = 8 then (seed i % 256) % 64 + 128
    else seed i % 256)

/-- The `formatUUIDBytes`: hex-encode the 16 bytes and join the five standard
groups (`slice(0,4)`, `slice(4,6)`, `slice(6,8)`, `slice(8,10)`,
`slice(10,16)`) with dashes. -/
def formatUUIDBytes (bytes : List Nat) : String :=
  let hex := bytes.map hexByte
  String.intercalate "-"
    [String.join (hex.take 4),
     String.join ((hex.drop 4).take 2),
     String.join ((hex.drop 6).take 2),
     String.join ((hex.drop 8).take 2),
     String.join (hex.drop 10)]

/-- The `generateUUID`, modelled on its in-repository fallback path (the other
branch defers to the environment's `crypto.randomUUID`); the random bytes
are the explicit `seed` parameter. -/
def generateUUID (seed : Nat → Nat) : String :=
  formatUUIDBytes (uuidBytes seed)

/-- The metadata fields of `createRequestMeta` that the claims refer to:
the correlation id (`extractRequestId(request) || generateUUID()`) and the
best-effort client IP.  The remaining fields (`startTime`, parsed `url`,
`method`) are copies of ambient data not referenced by any claim. -/
structure RequestMeta where
  id : String
  ip : Option String
deriving Repr, DecidableEq

/-- The `createRequestMeta`, restricted to the claim-relevant fields. -/
def createRequestMeta (hs : HeaderList) (seed : Nat → Nat) : RequestMeta :=
  { id := jsOrD (extractRequestId hs) (generateUUID seed),
    ip := extractClientIP hs }

/-- What an adapter does with the chain's reply: write it to the host
framework as the final response, invoke the host's own continuation, or
return without doing either. -/
inductive AdapterEffect where
  | finalize (r : Reply)
  | callNext
  | noEffect
deriving Repr, DecidableEq

/-- The shared `hasContent` test of the Hono/Koa/Fastify adapters:
a `Content-Type` header, a status other than 200, or a `Location` header. -/
def responseHasContent (r : Reply) : Bool :=
  headersHas r.headers "Content-Type" || r.status != 200 ||
    headersHas r.headers "Location"

/-- The `toHono`'s behavior after `chain.handle` returns: with content, copy
headers and return the response; otherwise `await next()` when
`passThrough` is set, else return without a response. -/
def toHono (passThrough : Bool) (r : Reply) : AdapterEffect :=
  if responseHasContent r then AdapterEffect.finalize r
  else if passThrough then AdapterEffect.callNext
  else AdapterEffect.noEffect

/-- The Hono adapter's default for `passThrough`. -/
def honoDefaultPassThrough : Bool := true

/-- The `toKoa`'s behavior after `chain.handle` returns: with content, write
status, headers and body to the Koa context; otherwise `await next()` when
`passThrough` is set, else do nothing. -/
def toKoa (passThrough : Bool) (r : Reply) : AdapterEffect :=
  if responseHasContent r then AdapterEffect.finalize r
  else if passThrough then AdapterEffect.callNext
  else AdapterEffect.noEffect

/-- The Koa adapter's default for `passThrough`. -/
def koaDefaultPassThrough : Bool := false

/-- The `k` onion handlers that each mutate the response builder (status 500)
on entry, numbered 1..k. -/
def preMutMws (k : Nat) : List Middleware :=
  (List.range k).map (fun i => preMutOnionMw (i + 1))

/-- A pipeline whose handler `k+1` short-circuits with `r`: `k`
builder-mutating onion handlers, then the stop handler, then arbitrary
further registered handlers. -/
def stopPipe (k : Nat) (r : Reply) (tail : List Middleware) : List Middleware :=
  preMutMws k ++ stopMw (k + 1) r :: tail

/-- The `k` catch-and-rethrow handlers (each recognizing ordinary error code 7),
then the stop handler, then arbitrary further registered handlers. -/
def rethrowPipe (k : Nat) (r : Reply) (tail : List Middleware) : List Middleware :=
  (List.range k).map (fun i => catchRethrowMw (i + 1) 7) ++ stopMw (k + 1) r :: tail

/-- The `n` onion handlers, then a handler returning `{done: false}` without
calling `next()`, then arbitrary further registered handlers. -/
def noNextPipe (n : Nat) (tail : List Middleware) : List Middleware :=
  onionMws n ++ noNextMw (n + 1) :: tail

/-- A handler that records entry and throws an ordinary error. -/
def throwHandler (k code : Nat) : HandlerFn := fun s _ =>
  ({ s with trace := s.trace ++ [Ev.enter k] }, HOut.thrown (Err.userError code))

/-- The `throwHandler` as a middleware. -/
def throwMw (k code : Nat) : Middleware :=
  { name := "throw-" ++ toString k, handler := throwHandler k code, onInit := none }




/-- The onion pipeline has one middleware per registered handler. -/
theorem onionMws_length (n : Nat) : (onionMws n).length = n := by
  simp [onionMws]

/-- The `i`-th registered middleware of the onion pipeline is handler `i+1`. -/
theorem onionMws_getElem (n i : Nat) (h : i < (onionMws n).length) :
    (onionMws n)[i] = onionMw (i + 1) := by
  simp [onionMws]

/-- Driving the onion pipeline from index `i` with `m = n - i` handlers left
enters `i+1 .. n` in order, resumes them in reverse, leaves the response
builder untouched, and ends with the index past the end and no error, for
any fuel above the remaining nesting depth. -/
theorem chainNext_onion (n : Nat) :
    ∀ m f s, s.index + m = n → m + 1 ≤ f →
      chainNext (onionMws n) f s =
        ({ index := n, resp := s.resp, trace := s.trace ++ onionTrace s.index m },
         none) := by
  intro m
  induction m with
  | zero =>
    intro f s hidx hf
    obtain ⟨i, r, t⟩ := s
    cases f with
    | zero => exact absurd hf (by omega)
    | succ g =>
      simp only at hidx
      have hi : i = n := by omega
      subst hi
      have hnlt : ¬ i < (onionMws i).length := by rw [onionMws_length]; omega
      simp [chainNext, hnlt, onionTrace]
  | succ m ih =>
    intro f s hidx hf
    obtain ⟨i, r, t⟩ := s
    cases f with
    | zero => exact absurd hf (by omega)
    | succ g =>
      simp only at hidx
      have hlt : i < (onionMws n).length := by rw [onionMws_length]; omega
      have hih := ih g ⟨i + 1, r, t ++ [Ev.enter (i + 1)]⟩ (by simp; omega) (by omega)
      simp only [chainNext, dif_pos hlt, onionMws_getElem n i hlt, onionMw,
        onionHandler]
      rw [hih]
      simp [onionTrace, List.append_assoc]



/-- Entry events for `m+1` handlers split off the first one. -/
theorem enterSeq_succ (i m : Nat) :
    enterSeq i (m + 1) = Ev.enter (i + 1) :: enterSeq (i + 1) m := by
  simp only [enterSeq, List.range_succ_eq_map, List.map_cons, List.map_map]
  congr 1
  apply List.map_congr_left
  intro a _
  simp only [Function.comp_apply, Ev.enter.injEq]
  omega

/-- Resumption events for `m+1` handlers split off the outermost one. -/
theorem afterSeqRev_succ (i m : Nat) :
    afterSeqRev i (m + 1) = afterSeqRev (i + 1) m ++ [Ev.afterNext (i + 1)] := by
  simp only [afterSeqRev, List.range_succ_eq_map, List.reverse_cons,
    List.map_append, List.map_map, List.map_reverse]
  congr 1
  congr 1
  apply List.map_congr_left
  intro a _
  simp only [Function.comp_apply, Ev.afterNext.injEq]
  omega

/-- The onion trace is exactly: all entries in ascending order followed by
all resumptions in descending order. -/
theorem onionTrace_eq (m : Nat) :
    ∀ i, onionTrace i m = enterSeq i m ++ afterSeqRev i m := by
  induction m with
  | zero => intro i; simp [onionTrace, enterSeq, afterSeqRev]
  | succ m ih =>
    intro i
    simp only [onionTrace, ih (i + 1), enterSeq_succ, afterSeqRev_succ]
    simp [List.append_assoc]

/-- C1: for every pipeline of handlers h1..hn that all invoke `next()` and
return `{done: false}`, `handle` enters the handlers in registration order
1..n, resumes the code placed after each handler's `next()` call in exact
reverse order n..1 (strict onion nesting), and completes normally with the
untouched builder's reply. -/
theorem chain_onion_order (n : Nat) :
    (handle ⟨onionMws n, false⟩ []).1.outcome = Except.ok defaultReply ∧
    (handle ⟨onionMws n, false⟩ []).1.finalState.trace =
      enterSeq 0 n ++ afterSeqRev 0 n := by
  have h := chainNext_onion n n ((onionMws n).length + 1) ⟨0, initialRespState, []⟩
    (by simp) (by rw [onionMws_length])
  simp only [handle, executeChain, h]
  simp [defaultReply, onionTrace_eq]


/-- Length of the stop pipeline. -/
theorem stopPipe_length (k : Nat) (r : Reply) (tail : List Middleware) :
    (stopPipe k r tail).length = k + 1 + tail.length := by
  simp [stopPipe, preMutMws]
  omega

/-- Below the stop position, the registered middleware is a mutating onion
handler. -/
theorem stopPipe_getElem_lt (k i : Nat) (r : Reply) (tail : List Middleware)
    (h : i < k) (hl : i < (stopPipe k r tail).length) :
    (stopPipe k r tail)[i] = preMutOnionMw (i + 1) := by
  have hk : i < (preMutMws k).length := by simp [preMutMws]; omega
  simp only [stopPipe]
  rw [List.getElem_append_left hk]
  simp [preMutMws]

/-- At the stop position, the registered middleware is the stop handler. -/
theorem stopPipe_getElem_eq (k : Nat) (r : Reply) (tail : List Middleware)
    (hl : k < (stopPipe k r tail).length) :
    (stopPipe k r tail)[k] = stopMw (k + 1) r := by
  have hk : (preMutMws k).length ≤ k := by simp [preMutMws]
  simp only [stopPipe]
  rw [List.getElem_append_right hk]
  simp [preMutMws]


/-- Driving the stop pipeline from index `i = k - m`: the remaining mutating
onion handlers and then the stop handler are entered in order, the
short-circuit signal unwinds through every pending `next()` without running
any resumption code, the builder keeps the handlers' mutation, and no
middleware past the stop position is ever invoked (the result does not
depend on `tail`). -/
theorem chainNext_stopPipe (k : Nat) (r : Reply) (tail : List Middleware) :
    ∀ m f s, s.index + m = k → m + 2 ≤ f →
      chainNext (stopPipe k r tail) f s =
        ({ index := k + 1,
           resp := if 0 < m then ResponseBuilder.setStatus 500 s.resp else s.resp,
           trace := s.trace ++ enterSeq s.index (m + 1) },
         some (Err.shortCircuit r)) := by
  intro m
  induction m with
  | zero =>
    intro f s hidx hf
    obtain ⟨i, r', t⟩ := s
    cases f with
    | zero => exact absurd hf (by omega)
    | succ g =>
      simp only at hidx
      have hi : i = k := by omega
      subst hi
      have hlt : i < (stopPipe i r tail).length := by
        rw [stopPipe_length]; omega
      simp only [chainNext, dif_pos hlt, stopPipe_getElem_eq i r tail hlt,
        stopMw, stopHandler]
      simp [enterSeq, List.range_succ]
  | succ m ih =>
    intro f s hidx hf
    obtain ⟨i, r', t⟩ := s
    cases f with
    | zero => exact absurd hf (by omega)
    | succ g =>
      simp only at hidx
      have hik : i < k := by omega
      have hlt : i < (stopPipe k r tail).length := by
        rw [stopPipe_length]; omega
      have hih := ih g ⟨i + 1, ResponseBuilder.setStatus 500 r',
        t ++ [Ev.enter (i + 1)]⟩ (by simp; omega) (by omega)
      simp only [chainNext, dif_pos hlt, stopPipe_getElem_lt k i r tail hik hlt,
        preMutOnionMw, preMutOnionHandler]
      rw [hih]
      simp [ResponseBuilder.setStatus, enterSeq_succ, List.append_assoc]


/-- C2: for every pipeline where handler `k+1` returns
`{done: true, response: r}`, `handle` returns exactly `r`; the handlers
registered after it (an arbitrary `tail`) are never invoked — the outcome
and the recorded events are independent of `tail`, and the event log stops
at handler `k+1`'s entry; and the context's own response builder is
bypassed entirely: the upstream handlers set its status to 500, yet the
returned reply is `r`. -/
theorem chain_stop_returns_reply (k : Nat) (r : Reply) (tail : List Middleware) :
    (handle ⟨stopPipe k r tail, false⟩ []).1.outcome = Except.ok r ∧
    (handle ⟨stopPipe k r tail, false⟩ []).1.finalState.trace =
      enterSeq 0 (k + 1) := by
  have h := chainNext_stopPipe k r tail k ((stopPipe k r tail).length + 1)
    ⟨0, initialRespState, []⟩ (by simp) (by rw [stopPipe_length]; omega)
  simp only [handle, executeChain, h]
  simp


/-- Length of the rethrow pipeline. -/
theorem rethrowPipe_length (k : Nat) (r : Reply) (tail : List Middleware) :
    (rethrowPipe k r tail).length = k + 1 + tail.length := by
  simp [rethrowPipe]
  omega

/-- Below the stop position, the rethrow pipeline holds a
catch-and-rethrow handler. -/
theorem rethrowPipe_getElem_lt (k i : Nat) (r : Reply) (tail : List Middleware)
    (h : i < k) (hl : i < (rethrowPipe k r tail).length) :
    (rethrowPipe k r tail)[i] = catchRethrowMw (i + 1) 7 := by
  have hk : i < ((List.range k).map (fun j => catchRethrowMw (j + 1) 7)).length := by
    simp; omega
  simp only [rethrowPipe]
  rw [List.getElem_append_left hk]
  simp

/-- At the stop position, the rethrow pipeline holds the stop handler. -/
theorem rethrowPipe_getElem_eq (k : Nat) (r : Reply) (tail : List Middleware)
    (hl : k < (rethrowPipe k r tail).length) :
    (rethrowPipe k r tail)[k] = stopMw (k + 1) r := by
  have hk : ((List.range k).map (fun j => catchRethrowMw (j + 1) 7)).length ≤ k := by
    simp
  simp only [rethrowPipe]
  rw [List.getElem_append_right hk]
  simp

/-- Driving the rethrow pipeline: every upstream catch block rethrows the
short-circuit signal (exception-type discrimination), so the signal unwinds
to the driver, no resumption or catch event is recorded, and the builder is
untouched. -/
theorem chainNext_rethrowPipe (k : Nat) (r : Reply) (tail : List Middleware) :
    ∀ m f s, s.index + m = k → m + 2 ≤ f →
      chainNext (rethrowPipe k r tail) f s =
        ({ index := k + 1, resp := s.resp,
           trace := s.trace ++ enterSeq s.index (m + 1) },
         some (Err.shortCircuit r)) := by
  intro m
  induction m with
  | zero =>
    intro f s hidx hf
    obtain ⟨i, r', t⟩ := s
    cases f with
    | zero => exact absurd hf (by omega)
    | succ g =>
      simp only at hidx
      have hi : i = k := by omega
      subst hi
      have hlt : i < (rethrowPipe i r tail).length := by
        rw [rethrowPipe_length]; omega
      simp only [chainNext, dif_pos hlt, rethrowPipe_getElem_eq i r tail hlt,
        stopMw, stopHandler]
      simp [enterSeq, List.range_succ]
  | succ m ih =>
    intro f s hidx hf
    obtain ⟨i, r', t⟩ := s
    cases f with
    | zero => exact absurd hf (by omega)
    | succ g =>
      simp only at hidx
      have hik : i < k := by omega
      have hlt : i < (rethrowPipe k r tail).length := by
        rw [rethrowPipe_length]; omega
      have hih := ih g ⟨i + 1, r', t ++ [Ev.enter (i + 1)]⟩ (by simp; omega)
        (by omega)
      simp only [chainNext, dif_pos hlt,
        rethrowPipe_getElem_lt k i r tail hik hlt, catchRethrowMw,
        catchRethrowHandler]
      rw [hih]
      simp [enterSeq_succ, List.append_assoc]


/-- C3 (counterexample): the engine's short-circuit signal is an exception,
and a JavaScript `catch` meant for ordinary errors receives it like any
other thrown value.  In the pipeline [blanket-catch handler, stop handler],
the downstream handler returns `Stop` with a 201 reply, yet `handle`
returns the untouched builder's 200 reply instead, and the upstream catch
records that it observed the signal. -/
theorem swallow_catch_intercepts_stop :
    (handle ⟨[catchSwallowMw 1, stopMw 2 ⟨201, [], some "created"⟩], false⟩
        []).1.outcome = Except.ok defaultReply ∧
    defaultReply ≠ (⟨201, [], some "created"⟩ : Reply) ∧
    (handle ⟨[catchSwallowMw 1, stopMw 2 ⟨201, [], some "created"⟩], false⟩
        []).1.finalState.trace = [Ev.enter 1, Ev.enter 2, Ev.caught 1] := by
  refine ⟨by decide, by decide, by decide⟩

/-- C3 (amended): the short-circuit signal survives upstream catch blocks
that follow the repository's own discipline of rethrowing errors they do
not recognize: with any number of such handlers wrapping their `next()`
call, a downstream `Stop(r)` still makes `handle` return exactly `r` and no
catch event is recorded; the same catch construct does handle the ordinary
error it recognizes (final two conjuncts). -/
theorem rethrow_catch_preserves_stop (k : Nat) (r : Reply)
    (tail : List Middleware) :
    (handle ⟨rethrowPipe k r tail, false⟩ []).1.outcome = Except.ok r ∧
    (handle ⟨rethrowPipe k r tail, false⟩ []).1.finalState.trace =
      enterSeq 0 (k + 1) ∧
    (handle ⟨[catchRethrowMw 1 7, throwMw 2 7], false⟩ []).1.outcome =
      Except.ok defaultReply ∧
    (handle ⟨[catchRethrowMw 1 7, throwMw 2 7], false⟩ []).1.finalState.trace =
      [Ev.enter 1, Ev.enter 2, Ev.caught 1] := by
  have h := chainNext_rethrowPipe k r tail k ((rethrowPipe k r tail).length + 1)
    ⟨0, initialRespState, []⟩ (by simp) (by rw [rethrowPipe_length]; omega)
  refine ⟨?_, ?_, by decide, by decide⟩
  · simp only [handle, executeChain, h]
  · simp only [handle, executeChain, h]
    simp


/-- Length of the no-`next` pipeline. -/
theorem noNextPipe_length (n : Nat) (tail : List Middleware) :
    (noNextPipe n tail).length = n + 1 + tail.length := by
  simp [noNextPipe, onionMws]
  omega

/-- Below the no-`next` position, the pipeline holds an onion handler. -/
theorem noNextPipe_getElem_lt (n i : Nat) (tail : List Middleware)
    (h : i < n) (hl : i < (noNextPipe n tail).length) :
    (noNextPipe n tail)[i] = onionMw (i + 1) := by
  have hk : i < (onionMws n).length := by rw [onionMws_length]; omega
  simp only [noNextPipe]
  rw [List.getElem_append_left hk]
  simp [onionMws]

/-- At position `n`, the pipeline holds the no-`next` handler. -/
theorem noNextPipe_getElem_eq (n : Nat) (tail : List Middleware)
    (hl : n < (noNextPipe n tail).length) :
    (noNextPipe n tail)[n] = noNextMw (n + 1) := by
  have hk : (onionMws n).length ≤ n := by rw [onionMws_length]
  simp only [noNextPipe]
  rw [List.getElem_append_right hk]
  simp [onionMws_length]

/-- Driving the no-`next` pipeline: the handler that returns
`{done: false}` without calling `next()` ends the descent — the index never
moves past it, so no later middleware is invoked, the upstream handlers'
resumption code runs in reverse order, and no error arises. -/
theorem chainNext_noNextPipe (n : Nat) (tail : List Middleware) :
    ∀ m f s, s.index + m = n → m + 2 ≤ f →
      chainNext (noNextPipe n tail) f s =
        ({ index := n + 1, resp := s.resp,
           trace := s.trace ++ noNextTrace s.index m },
         none) := by
  intro m
  induction m with
  | zero =>
    intro f s hidx hf
    obtain ⟨i, r', t⟩ := s
    cases f with
    | zero => exact absurd hf (by omega)
    | succ g =>
      simp only at hidx
      have hi : i = n := by omega
      subst hi
      have hlt : i < (noNextPipe i tail).length := by
        rw [noNextPipe_length]; omega
      simp only [chainNext, dif_pos hlt, noNextPipe_getElem_eq i tail hlt,
        noNextMw, noNextHandler]
      simp [noNextTrace]
  | succ m ih =>
    intro f s hidx hf
    obtain ⟨i, r', t⟩ := s
    cases f with
    | zero => exact absurd hf (by omega)
    | succ g =>
      simp only at hidx
      have hik : i < n := by omega
      have hlt : i < (noNextPipe n tail).length := by
        rw [noNextPipe_length]; omega
      have hih := ih g ⟨i + 1, r', t ++ [Ev.enter (i + 1)]⟩ (by simp; omega)
        (by omega)
      simp only [chainNext, dif_pos hlt,
        noNextPipe_getElem_lt n i tail hik hlt, onionMw, onionHandler]
      rw [hih]
      simp [noNextTrace, List.append_assoc]

/-- The no-`next` trace is all entries `i+1 .. i+m+1` followed by the
resumptions `i+m .. i+1`. -/
theorem noNextTrace_eq (m : Nat) :
    ∀ i, noNextTrace i m = enterSeq i (m + 1) ++ afterSeqRev i m := by
  induction m with
  | zero =>
    intro i
    simp [noNextTrace, enterSeq, afterSeqRev, List.range_succ]
  | succ m ih =>
    intro i
    simp only [noNextTrace, ih (i + 1), enterSeq_succ, afterSeqRev_succ]
    simp [List.append_assoc]


/-- C5 (amended): when a handler returns `{done: false}` without invoking
`next()`, no downstream handler runs and no error is raised; the pipeline
unwinds through the upstream handlers' post-`next` code, and when none of
them mutates the builder there (here: plain onion handlers), `handle`
returns exactly what the builder held at the moment that handler returned —
the default status-200, bodyless reply. -/
theorem no_next_terminates_pipeline (n : Nat) (tail : List Middleware) :
    (handle ⟨noNextPipe n tail, false⟩ []).1.outcome = Except.ok defaultReply ∧
    (handle ⟨noNextPipe n tail, false⟩ []).1.finalState.trace =
      enterSeq 0 (n + 1) ++ afterSeqRev 0 n := by
  have h := chainNext_noNextPipe n tail n ((noNextPipe n tail).length + 1)
    ⟨0, initialRespState, []⟩ (by simp) (by rw [noNextPipe_length]; omega)
  simp only [handle, executeChain, h]
  simp [defaultReply, noNextTrace_eq]

/-- C5 (counterexample): the reply `handle` returns is not in general the
builder's contents at the moment the no-`next` handler returned.  Handler 1
calls `next()`, handler 2 returns `{done: false}` without calling `next()`
while the builder still holds its default state (status 200, no body) —
but handler 1's post-`next` code then sets status 500, and `handle` returns
the 500 reply, not the default one. -/
theorem no_next_after_mutation_differs :
    (handle ⟨[afterMutateMw 1 500, noNextMw 2], false⟩ []).1.outcome =
      Except.ok ⟨500, [], none⟩ ∧
    (⟨500, [], none⟩ : Reply) ≠ defaultReply ∧
    (handle ⟨[afterMutateMw 1 500, noNextMw 2], false⟩ []).1.finalState.trace =
      [Ev.enter 1, Ev.enter 2, Ev.afterNext 1] := by
  refine ⟨by decide, by decide, by decide⟩


/-- Every `handle` call leaves the middleware list unchanged and the
`initialized` flag set. -/
theorem handle_chainState (cs : ChainState) (st : List Ev) :
    (handle cs st).2 = { cs with initialized := true } := by
  simp only [handle]
  cases hx : executeChain cs.middlewares (cs.middlewares.length + 1) st with
  | mk s oe =>
    cases oe with
    | none => rfl
    | some e => cases e <;> rfl

/-- A `handle` call runs the `onInit` hooks exactly when the chain was not
yet initialized. -/
theorem handle_initLog (cs : ChainState) (st : List Ev) :
    (handle cs st).1.initLog =
      if cs.initialized then [] else initializeMiddlewares cs.middlewares := by
  simp only [handle]
  cases hx : executeChain cs.middlewares (cs.middlewares.length + 1) st with
  | mk s oe =>
    cases oe with
    | none => rfl
    | some e => cases e <;> rfl

/-- On an already-initialized chain, sequential `handle` calls never run a
hook again and never change the chain state. -/
theorem seqHandle_initialized (mws : List Middleware) :
    ∀ m, (seqHandle ⟨mws, true⟩ m).1 = List.replicate m [] ∧
      (seqHandle ⟨mws, true⟩ m).2 = ⟨mws, true⟩ := by
  intro m
  induction m with
  | zero => exact ⟨rfl, rfl⟩
  | succ m ih =>
    simp only [seqHandle, handle_chainState, handle_initLog]
    simp only [List.replicate]
    exact ⟨by simp [ih.1], by simp [ih.2]⟩

/-- Flattening `m` empty logs gives the empty log. -/
theorem flatten_replicate_nil (m : Nat) :
    (List.replicate m ([] : List String)).flatten = [] := by
  induction m with
  | zero => rfl
  | succ m ih => simp [List.replicate, ih]

/-- C6: across any number `m+1` of sequential (non-overlapping) `handle`
calls on a fresh pipeline, the first call runs every registered handler's
`onInit` hook, in registration order (`initializeMiddlewares`), and every
later call runs none, so in total each hook runs exactly once. -/
theorem onInit_runs_once (mws : List Middleware) (m : Nat) :
    (seqHandle ⟨mws, false⟩ (m + 1)).1 =
      initializeMiddlewares mws :: List.replicate m [] ∧
    ((seqHandle ⟨mws, false⟩ (m + 1)).1).flatten = initializeMiddlewares mws := by
  have h1 : (seqHandle ⟨mws, false⟩ (m + 1)).1 =
      initializeMiddlewares mws :: List.replicate m [] := by
    simp only [seqHandle, handle_chainState, handle_initLog]
    simp [(seqHandle_initialized mws m).1]
  refine ⟨h1, ?_⟩
  rw [h1]
  simp [flatten_replicate_nil]


/-- C10: `clone()` does not copy the one-shot initialization flag.  After a
`handle` call has run (setting `initialized`), the clone shares the very
same middleware list but starts with the flag clear, so the first `handle`
on the clone runs every registered `onInit` hook again. -/
theorem clone_reruns_onInit (mws : List Middleware) (st : List Ev) :
    ((handle ⟨mws, false⟩ st).2).initialized = true ∧
    (clone ((handle ⟨mws, false⟩ st).2)).middlewares =
      ((handle ⟨mws, false⟩ st).2).middlewares ∧
    (clone ((handle ⟨mws, false⟩ st).2)).initialized = false ∧
    (handle (clone ((handle ⟨mws, false⟩ st).2)) st).1.initLog =
      initializeMiddlewares mws := by
  simp [handle_chainState, clone, handle_initLog]

/-- C7: `build()` is idempotent and side-effect-free — it leaves the
builder's status, headers and body unchanged, and a second `build()` on the
unmutated builder yields an equal snapshot. -/
theorem build_idempotent_side_effect_free (b : RespState) :
    (ResponseBuilder.build b).2 = b ∧
    (ResponseBuilder.build ((ResponseBuilder.build b).2)).1 =
      (ResponseBuilder.build b).1 ∧
    ((ResponseBuilder.build b).2).status = b.status ∧
    ((ResponseBuilder.build b).2).headers = b.headers ∧
    ((ResponseBuilder.build b).2).body = b.body :=
  ⟨rfl, rfl, rfl, rfl, rfl⟩

/-- The adapters' shared content test, spelled as a proposition. -/
theorem responseHasContent_iff (r : Reply) :
    responseHasContent r = true ↔
      (r.status ≠ 200 ∨ headersHas r.headers "Content-Type" = true ∨
        headersHas r.headers "Location" = true) := by
  simp only [responseHasContent, Bool.or_eq_true, bne_iff_ne, ne_eq]
  tauto


/-- The Hono adapter finalizes exactly when the content test holds. -/
theorem toHono_finalize_iff (pt : Bool) (r : Reply) :
    toHono pt r = AdapterEffect.finalize r ↔ responseHasContent r = true := by
  cases hC : responseHasContent r <;> cases pt <;> simp [toHono, hC]

/-- The Koa adapter finalizes exactly when the content test holds. -/
theorem toKoa_finalize_iff (pt : Bool) (r : Reply) :
    toKoa pt r = AdapterEffect.finalize r ↔ responseHasContent r = true := by
  cases hC : responseHasContent r <;> cases pt <;> simp [toKoa, hC]

/-- C4 (amended): every adapter finalizes the chain's reply to the host iff
its status is not 200 or a `Content-Type` or `Location` header is present;
otherwise the adapter invokes the host's continuation when its
`passThrough` option is set — which is the default for Hono but not for
Koa, whose default-option adapter neither finalizes nor continues on a
no-op reply. -/
theorem adapter_passthrough_heuristic (r : Reply) (pt : Bool) :
    (toHono pt r = AdapterEffect.finalize r ↔
      (r.status ≠ 200 ∨ headersHas r.headers "Content-Type" = true ∨
        headersHas r.headers "Location" = true)) ∧
    (toKoa pt r = AdapterEffect.finalize r ↔
      (r.status ≠ 200 ∨ headersHas r.headers "Content-Type" = true ∨
        headersHas r.headers "Location" = true)) ∧
    (toHono honoDefaultPassThrough r ≠ AdapterEffect.finalize r →
      toHono honoDefaultPassThrough r = AdapterEffect.callNext) ∧
    (toKoa koaDefaultPassThrough r ≠ AdapterEffect.finalize r →
      toKoa koaDefaultPassThrough r = AdapterEffect.noEffect) ∧
    (toKoa true r ≠ AdapterEffect.finalize r →
      toKoa true r = AdapterEffect.callNext) := by
  refine ⟨?_, ?_, ?_, ?_, ?_⟩
  · rw [toHono_finalize_iff]; exact responseHasContent_iff r
  · rw [toKoa_finalize_iff]; exact responseHasContent_iff r
  · intro h
    cases hC : responseHasContent r with
    | false => simp [toHono, hC, honoDefaultPassThrough]
    | true => exact absurd ((toHono_finalize_iff _ r).mpr hC) h
  · intro h
    cases hC : responseHasContent r with
    | false => simp [toKoa, hC, koaDefaultPassThrough]
    | true => exact absurd ((toKoa_finalize_iff _ r).mpr hC) h
  · intro h
    cases hC : responseHasContent r with
    | false => simp [toKoa, hC]
    | true => exact absurd ((toKoa_finalize_iff _ r).mpr hC) h

/-- C4 (witness): the Koa adapter finalizes a 204 reply; the default-option
Hono adapter continues on a no-op reply; the default-option Koa adapter
does nothing on a no-op reply. -/
theorem adapter_passthrough_heuristic_witness :
    toKoa koaDefaultPassThrough ⟨204, [], none⟩ =
      AdapterEffect.finalize ⟨204, [], none⟩ ∧
    toHono honoDefaultPassThrough defaultReply = AdapterEffect.callNext ∧
    toKoa koaDefaultPassThrough defaultReply = AdapterEffect.noEffect := by
  refine ⟨?_, ?_, ?_⟩
  · exact (adapter_passthrough_heuristic ⟨204, [], none⟩
      koaDefaultPassThrough).2.1.mpr (Or.inl (by decide))
  · exact (adapter_passthrough_heuristic defaultReply true).2.2.1 (by decide)
  · exact (adapter_passthrough_heuristic defaultReply false).2.2.2.1 (by decide)

/-- C4 (counterexample): on a no-op reply (status 200, no headers), the Koa
adapter with its default options (`passThrough = false`) does not invoke
the host framework's continuation — it does nothing at all. -/
theorem koa_default_not_passthrough :
    toKoa koaDefaultPassThrough defaultReply = AdapterEffect.noEffect ∧
    AdapterEffect.noEffect ≠ AdapterEffect.callNext := by
  refine ⟨by decide, by decide⟩


/-- C8: client-IP derivation walks the fixed header priority list in order,
takes a present header's first comma-separated entry, keeps it only when it
is syntactically valid IPv4/IPv6 and otherwise moves on to the next header,
and yields nothing when no header validates: the forwarded-for chain yields
its first entry; with no IP-bearing header the field is absent; an invalid
higher-priority header falls through to a later valid one; a valid
higher-priority header beats a later one; an out-of-range octet in the only
candidate yields nothing; a bare IPv6 loopback is accepted. -/
theorem client_ip_derivation :
    extractClientIP [("x-forwarded-for", "203.0.113.5, 10.0.0.1")] =
      some "203.0.113.5" ∧
    extractClientIP [] = none ∧
    extractClientIP [("cf-connecting-ip", "not-an-ip"),
      ("x-forwarded-for", "203.0.113.5")] = some "203.0.113.5" ∧
    extractClientIP [("x-forwarded-for", "10.0.0.1"),
      ("cf-connecting-ip", "1.2.3.4")] = some "1.2.3.4" ∧
    extractClientIP [("x-forwarded-for", "999.0.0.1, 10.0.0.1")] = none ∧
    extractClientIP [("x-real-ip", "::1")] = some "::1" := by
  refine ⟨by decide, by decide, by decide, by decide, by decide, by decide⟩

/-- A hex-encoded byte is two characters. -/
theorem hexByte_length (b : Nat) : (hexByte b).length = 2 := rfl

/-- The generated fallback UUID has the canonical 36-character layout for
every choice of random bytes — in particular it is never empty. -/
theorem generateUUID_length (seed : Nat → Nat) :
    (generateUUID seed).length = 36 := by
  have h16 : List.range 16 = [0, 1, 2, 3, 4, 5, 6, 7, 8, 9, 10, 11, 12, 13, 14, 15] := by
    decide
  have hd : ("-" : String).length = 1 := rfl
  simp [generateUUID, formatUUIDBytes, uuidBytes, h16, String.intercalate,
    String.intercalate.go, String.join, String.length_append, hexByte_length, hd]

/-- C9: correlation-id derivation takes the first present value among the
fixed header names in order (`x-request-id`, then `x-correlation-id`, then
`request-id`); a request carrying `x-request-id: abc-123` gets exactly that
id, `x-request-id` wins over `x-correlation-id`, and with none of the
headers present the id is the freshly generated identifier, which is
non-empty (36 characters) for every randomness source. -/
theorem request_id_derivation :
    createRequestMeta [("x-request-id", "abc-123")] (fun _ => 0) =
      { id := "abc-123", ip := none } ∧
    createRequestMeta [("x-correlation-id", "corr-9"),
      ("x-request-id", "abc-123")] (fun _ => 0) =
      { id := "abc-123", ip := none } ∧
    createRequestMeta [("x-correlation-id", "corr-9")] (fun _ => 0) =
      { id := "corr-9", ip := none } ∧
    extractRequestId [] = none ∧
    (∀ seed : Nat → Nat, createRequestMeta [] seed =
      { id := generateUUID seed, ip := none }) ∧
    (∀ seed : Nat → Nat, (generateUUID seed).length = 36) := by
  refine ⟨by decide, by decide, by decide, by decide, ?_, generateUUID_length⟩
  intro seed
  rfl

end OpenMW
